import Mathlib

/-!
# Verification of the Real-or-AI quiz session state machine

This file gives a shallow embedding of the session progression and
submission logic of the Real-or-AI frontend (the source revision that
carries the forward-only `unlockedRoundIndex` lock together with the
post-submission leaderboard fetch), and proves properties of that
embedding.

Modelling conventions:
* React `useState` fields become fields of an explicit `AppState` record;
  each event handler becomes a pure function `AppState → AppState`
  (returning in addition the network request it issues, if any).
* The `fetch`/`await` pairs are modelled by passing the environment's
  response as a `FetchResult` argument: `ok` is a parsed body of a
  successful response, `httpErr` a parsed body of a non-success response,
  and `thrown` a transport or parse failure (a rejected promise caught by
  the surrounding `catch`).
* The asynchronous `submitAttempt` is split at its first `await` into
  `submitStart` (guard, validation loop, optimistic state updates, and
  the POST request) and `submitFinish` (response handling, the follow-up
  leaderboard fetch, and the `catch`/`finally` blocks).  The state between
  the two is the in-flight (`submitting = true`) state.
* JavaScript's `Array.prototype.sort` with the comparator
  `(a, b) => a.roundIndex - b.roundIndex` (a stable ascending sort) is
  modelled by `List.insertionSort`, which is also stable and ascending.
* The JavaScript object `answers` (`Record<number, Choice>`) is modelled
  by an association list with object-spread update semantics
  (`updateEntry`) and property lookup (`getAnswer`).
-/

namespace RealOrAI

/-- `Choice`: the user's binary verdict for a round (`"real" | "ai"`). -/
inductive Choice where
  | real
  | ai
deriving DecidableEq, Repr

/-- `PuzzleRound`: `{ roundIndex: number; imageUrl: string }`. -/
structure PuzzleRound where
  roundIndex : Nat
  imageUrl : String
deriving DecidableEq, Repr

/-- `PuzzleResponse`: `{ date: string; rounds: PuzzleRound[]; error?: string }`. -/
structure PuzzleResponse where
  date : String
  rounds : List PuzzleRound
  error : Option String
deriving DecidableEq, Repr

/-- `AttemptResponse`: the discriminated union returned by `POST /api/attempt`.
The success arm carries `ok: true` plus the score data; the failure arm
carries `error` and an optional `details` (the remaining optional fields of
the failure arm are never read by the component and are omitted). -/
inductive AttemptResponse where
  | ok (alreadySubmitted : Bool) (puzzleDate : String) (score : Int)
      (totalRounds : Nat) (createdAt : Option String)
  | err (error : String) (details : Option String)
deriving DecidableEq, Repr

/-- `LeaderboardEntry`: `{ rank, user, score, createdAt }`. -/
structure LeaderboardEntry where
  rank : Nat
  user : String
  score : Int
  createdAt : String
deriving DecidableEq, Repr

/-- `LeaderboardResponse`: `{ puzzleDate, leaderboard }`. -/
structure LeaderboardResponse where
  puzzleDate : String
  leaderboard : List LeaderboardEntry
deriving DecidableEq, Repr

/-- Outcome of one `fetch` + `res.json()` pair, as seen by the calling code:
a parsed body of a 2xx response, a parsed body of a non-2xx response
(paired with `res.status`), or a rejection (network failure or parse
failure) that lands in the surrounding `catch` with a message string. -/
inductive FetchResult (α : Type) where
  | ok (body : α)
  | httpErr (status : Nat) (body : α)
  | thrown (msg : String)
deriving DecidableEq, Repr

/-- Body of the `POST /api/attempt` request:
`{ puzzleDate, answers: Object.fromEntries(rounds.map(r => [String(r.roundIndex), answers[r.roundIndex]])) }`.
An entry value is `none` exactly when the JS expression `answers[r.roundIndex]`
is `undefined` (which the validation loop rules out before the payload is built). -/
structure AttemptPayload where
  puzzleDate : String
  answers : List (String × Option Choice)
deriving DecidableEq, Repr

/-- A network request issued by the component. -/
inductive Request where
  | attemptReq (url : String) (headers : List (String × String)) (body : AttemptPayload)
  | leaderboardReq (url : String)
deriving DecidableEq, Repr

/-- The component state: one field per `useState` hook, plus the two
render-constant strings `apiBase` (`import.meta.env.VITE_API_BASE`) and
`userId` (`ensureUserId()`). -/
structure AppState where
  apiBase : String
  userId : String
  puzzle : Option PuzzleResponse
  err : Option String
  answers : List (Nat × Choice)
  idx : Nat
  unlockedRoundIndex : Option Nat
  submitting : Bool
  attempt : Option AttemptResponse
  leaderboard : Option LeaderboardResponse
  loadingLeaderboard : Bool
deriving DecidableEq, Repr

/-- The `useState` initial values (`null`/`{}`/`0`/`false`). -/
def initState (apiBase userId : String) : AppState where
  apiBase := apiBase
  userId := userId
  puzzle := none
  err := none
  answers := []
  idx := 0
  unlockedRoundIndex := none
  submitting := false
  attempt := none
  leaderboard := none
  loadingLeaderboard := false

/-- JS object property lookup `answers[j]` on the `answers` record. -/
def getAnswer : List (Nat × Choice) → Nat → Option Choice
  | [], _ => none
  | (k, c) :: rest, j => if j = k then some c else getAnswer rest j

/-- JS object-spread update `{ ...prev, [k]: c }`: replaces the value at an
existing key in place, otherwise appends the new key. -/
def updateEntry : List (Nat × Choice) → Nat → Choice → List (Nat × Choice)
  | [], k, c => [(k, c)]
  | (k', c') :: rest, k, c =>
      if k' = k then (k, c) :: rest else (k', c') :: updateEntry rest k c

/-- The comparator `(a, b) => a.roundIndex - b.roundIndex` sorts ascending. -/
def roundLe (a b : PuzzleRound) : Prop := a.roundIndex ≤ b.roundIndex

instance : DecidableRel roundLe := fun a b =>
  inferInstanceAs (Decidable (a.roundIndex ≤ b.roundIndex))

instance : IsTotal PuzzleRound roundLe := ⟨fun a b => Nat.le_total a.roundIndex b.roundIndex⟩

instance : IsTrans PuzzleRound roundLe := ⟨fun _ _ _ h₁ h₂ => Nat.le_trans h₁ h₂⟩

/-- `json.rounds.sort((a, b) => a.roundIndex - b.roundIndex)`: a stable
ascending sort by `roundIndex`, modelled by stable insertion sort. -/
def sortRounds (l : List PuzzleRound) : List PuzzleRound :=
  List.insertionSort roundLe l

/-- `const rounds = puzzle?.rounds ?? [];` -/
def roundsOf (s : AppState) : List PuzzleRound :=
  match s.puzzle with
  | some p => p.rounds
  | none => []

/-- `const totalRounds = rounds.length || 5;` (JS falsy: `0 || 5 = 5`). -/
def totalRounds (s : AppState) : Nat :=
  if (roundsOf s).length = 0 then 5 else (roundsOf s).length

/-- `const current = rounds[idx] ?? null;` -/
def currentRound (s : AppState) : Option PuzzleRound :=
  (roundsOf s)[s.idx]?

/-- `const isLast = idx === rounds.length - 1;` (JS arithmetic: for an empty
round list the right-hand side is `-1`, so the comparison is over `Int`). -/
def isLast (s : AppState) : Bool :=
  (s.idx : Int) == ((roundsOf s).length : Int) - 1

/-- `const currentRoundIndex = current?.roundIndex ?? 0;` -/
def currentRoundIndex (s : AppState) : Nat :=
  match currentRound s with
  | some r => r.roundIndex
  | none => 0

/-- `attempt && "ok" in attempt && attempt.ok` -/
def isAttemptOk : Option AttemptResponse → Bool
  | some (.ok ..) => true
  | _ => false

/-- `const isCurrentLocked = submitting || (attempt && "ok" in attempt && attempt.ok) || unlockedRoundIndex === null || currentRoundIndex !== unlockedRoundIndex;` -/
def isCurrentLocked (s : AppState) : Bool :=
  s.submitting || isAttemptOk s.attempt ||
    (match s.unlockedRoundIndex with
     | none => true
     | some u => currentRoundIndex s != u)

/-- `function setChoice(roundIndex, choice) { if (isCurrentLocked) return; setAnswers(prev => ({ ...prev, [roundIndex]: choice })); }` -/
def setChoice (s : AppState) (roundIndex : Nat) (choice : Choice) : AppState :=
  if isCurrentLocked s then s
  else { s with answers := updateEntry s.answers roundIndex choice }

/-- The validation loop of `submitAttempt`: the first `r` of `rounds` with
`!answers[r.roundIndex]`, if any. -/
def firstUnanswered : List PuzzleRound → List (Nat × Choice) → Option PuzzleRound
  | [], _ => none
  | r :: rest, ans =>
      match getAnswer ans r.roundIndex with
      | none => some r
      | some _ => firstUnanswered rest ans

/-- The request body built by `submitAttempt`:
`{ puzzleDate: puzzle.date, answers: Object.fromEntries(rounds.map(r => [String(r.roundIndex), answers[r.roundIndex]])) }`.
Note that it is a function of the puzzle and the answers ledger only —
the user token is not part of it. -/
def mkPayload (pz : PuzzleResponse) (ans : List (Nat × Choice)) : AttemptPayload where
  puzzleDate := pz.date
  answers := pz.rounds.map fun r => (toString r.roundIndex, getAnswer ans r.roundIndex)

/-- First half of `submitAttempt`, up to (and including) issuing the POST:
the `!puzzle || !current` guard, the validation loop, and on success
`setErr(null); setSubmitting(true); setAttempt(null)` plus the request with
header `X-User-Id: userId`. -/
def submitStart (s : AppState) : AppState × Option Request :=
  match s.puzzle, currentRound s with
  | some pz, some _ =>
      match firstUnanswered pz.rounds s.answers with
      | some r =>
          ({ s with
              err := some ("Please answer Round " ++ toString r.roundIndex
                ++ " before submitting.") }, none)
      | none =>
          ({ s with err := none, submitting := true, attempt := none },
           some (.attemptReq (s.apiBase ++ "/api/attempt")
              [("Content-Type", "application/json"), ("X-User-Id", s.userId)]
              (mkPayload pz s.answers)))
  | _, _ => (s, none)

/-- Second half of `submitAttempt`: handling of the attempt response, the
follow-up leaderboard fetch (`/api/leaderboard/today?limit=10`, issued only
on a successful attempt response), and the `catch` (sets `err`, clears
`attempt`, clears `loadingLeaderboard`) and `finally` (`setSubmitting(false)`)
blocks.  A `thrown` leaderboard result lands in the same `catch` as a thrown
attempt fetch, after `setAttempt(json)` has already run. -/
def submitFinish (s : AppState) (ar : FetchResult AttemptResponse)
    (lr : FetchResult LeaderboardResponse) : AppState × Option Request :=
  match ar with
  | .thrown m =>
      ({ s with
          err := some m, attempt := none, loadingLeaderboard := false,
          submitting := false }, none)
  | .httpErr status body =>
      ({ s with
          attempt := none,
          err := some (match body with
            | .err e (some d) => e ++ ": " ++ d
            | .err e none => e
            | .ok .. => "Submit failed (" ++ toString status ++ ")"),
          submitting := false }, none)
  | .ok body =>
      let s1 := { s with attempt := some body, loadingLeaderboard := true }
      let req : Request := .leaderboardReq (s.apiBase ++ "/api/leaderboard/today?limit=10")
      match lr with
      | .ok lbBody =>
          ({ s1 with
              leaderboard := some lbBody, loadingLeaderboard := false,
              submitting := false }, some req)
      | .httpErr _ _ =>
          ({ s1 with loadingLeaderboard := false, submitting := false }, some req)
      | .thrown m =>
          ({ s1 with
              err := some m, attempt := none, loadingLeaderboard := false,
              submitting := false }, some req)

/-- `function next() { ... }`: guard on `current`, the unanswered check, the
lock advance `setUnlockedRoundIndex(rounds[idx + 1].roundIndex)` with
`setIdx(v => Math.min(v + 1, rounds.length - 1))`, and on the last round the
call to `submitAttempt` (its first half; the `none` fallback of the
`rounds[idx + 1]?` lookup is unreachable because `current` exists and the
round is not the last). -/
def next (s : AppState) : AppState × Option Request :=
  match currentRound s with
  | none => (s, none)
  | some cur =>
      match getAnswer s.answers cur.roundIndex with
      | none => ({ s with err := some "Choose Real or AI to continue." }, none)
      | some _ =>
          let s := { s with err := none }
          if !isLast s then
            match (roundsOf s)[s.idx + 1]? with
            | some nextRound =>
                ({ s with
                    unlockedRoundIndex := some nextRound.roundIndex,
                    idx := min (s.idx + 1) ((roundsOf s).length - 1) }, none)
            | none => (s, none)
          else
            submitStart s

/-- The body of the `load` effect, given the outcome of the puzzle fetch:
the pre-fetch resets `setErr(null); setAttempt(null); setLeaderboard(null)`,
then either the non-ok branch, the `catch`, or the success path
(in-place sort, `setPuzzle`, `setAnswers({})`, `setIdx(0)`,
`setUnlockedRoundIndex(json.rounds[0]?.roundIndex ?? 1)`). -/
def load (s : AppState) (r : FetchResult PuzzleResponse) : AppState :=
  let s0 := { s with err := none, attempt := none, leaderboard := none }
  match r with
  | .thrown m => { s0 with err := some m }
  | .httpErr status body =>
      { s0 with
        puzzle := none,
        err := some (match body.error with
          | some e => e
          | none => "Failed to load puzzle (" ++ toString status ++ ")") }
  | .ok body =>
      let sorted : PuzzleResponse := { body with rounds := sortRounds body.rounds }
      { s0 with
        puzzle := some sorted, answers := [], idx := 0,
        unlockedRoundIndex := some (match sorted.rounds.head? with
          | some r0 => r0.roundIndex
          | none => 1) }

/-- `disabled={!current || submitting || !!(attempt && "ok" in attempt && attempt.ok)}`
on the single Next/Submit button. -/
def nextButtonDisabled (s : AppState) : Bool :=
  (currentRound s).isNone || s.submitting || isAttemptOk s.attempt

/-- A click on the Next/Submit button: a disabled button dispatches nothing;
otherwise `onClick={next}`. -/
def clickNext (s : AppState) : AppState × Option Request :=
  if nextButtonDisabled s then (s, none) else next s

/-- `disabled={!current || isCurrentLocked}` on both choice buttons. -/
def choiceButtonsDisabled (s : AppState) : Bool :=
  (currentRound s).isNone || isCurrentLocked s

/-- A click on the Real or AI button: a disabled button dispatches nothing;
otherwise `onClick={() => current && setChoice(current.roundIndex, c)}`. -/
def clickChoice (s : AppState) (c : Choice) : AppState :=
  if choiceButtonsDisabled s then s
  else
    match currentRound s with
    | some cur => setChoice s cur.roundIndex c
    | none => s

/-- The events that can occur on a loaded session: a click on a choice
button, a click on the Next/Submit button (whose submission, when started,
resolves through `resolveSubmit`), and the resolution of an in-flight
submission with the attempt and leaderboard fetch outcomes. -/
inductive SessionEvent where
  | choose (c : Choice)
  | advanceClick
  | resolveSubmit (ar : FetchResult AttemptResponse) (lr : FetchResult LeaderboardResponse)

/-- One step of the session: a submission resolution only applies when a
submission is actually in flight. -/
def stepEvent (e : SessionEvent) (s : AppState) : AppState × Option Request :=
  match e with
  | .choose c => (clickChoice s c, none)
  | .advanceClick => clickNext s
  | .resolveSubmit ar lr => if s.submitting then submitFinish s ar lr else (s, none)

/-- States reachable from `s₀` by session events. -/
inductive ReachableFrom (s₀ : AppState) : AppState → Prop
  | refl : ReachableFrom s₀ s₀
  | step (e : SessionEvent) {s : AppState} :
      ReachableFrom s₀ s → ReachableFrom s₀ (stepEvent e s).1

/-- The state right after a successful load of puzzle response `resp` into a
freshly mounted component. -/
def sessionStart (apiBase userId : String) (resp : PuzzleResponse) : AppState :=
  load (initState apiBase userId) (.ok resp)

/-- A reachable state of the session loaded from `resp`. -/
def Reachable (apiBase userId : String) (resp : PuzzleResponse) (s : AppState) : Prop :=
  ReachableFrom (sessionStart apiBase userId resp) s

end RealOrAI

namespace RealOrAI

/-! ## Basic lemmas about the ledger and the sorted round list -/

theorem getAnswer_updateEntry (l : List (Nat × Choice)) (k : Nat) (c : Choice) (j : Nat) :
    getAnswer (updateEntry l k c) j = if j = k then some c else getAnswer l j := by
  induction l with
  | nil => simp [updateEntry, getAnswer]
  | cons hd tl ih =>
    obtain ⟨k', c'⟩ := hd
    by_cases hk : k' = k
    · subst hk
      by_cases hj : j = k'
      · subst hj
        simp [updateEntry, getAnswer]
      · simp [updateEntry, getAnswer, hj]
    · by_cases hj : j = k'
      · subst hj
        have hjk : ¬j = k := fun h => hk h
        simp [updateEntry, hk, getAnswer, hjk]
      · simp [updateEntry, hk, getAnswer, hj, ih]

theorem isSome_getAnswer_updateEntry {l : List (Nat × Choice)} {j : Nat}
    (h : (getAnswer l j).isSome) (k : Nat) (c : Choice) :
    (getAnswer (updateEntry l k c) j).isSome := by
  rw [getAnswer_updateEntry]
  by_cases hj : j = k <;> simp [hj, h]

theorem sortRounds_sorted (l : List PuzzleRound) : List.Sorted roundLe (sortRounds l) :=
  List.sorted_insertionSort roundLe l

theorem sortRounds_length (l : List PuzzleRound) : (sortRounds l).length = l.length :=
  List.length_insertionSort roundLe l

/-- Consecutive elements of the sorted round list have non-decreasing indices. -/
theorem sortRounds_le_of_consecutive {l : List PuzzleRound} {i : Nat} {a b : PuzzleRound}
    (ha : (sortRounds l)[i]? = some a) (hb : (sortRounds l)[i + 1]? = some b) :
    a.roundIndex ≤ b.roundIndex := by
  have hi : i < (sortRounds l).length := by
    have := List.getElem?_eq_some.1 ha
    exact this.1
  have hi1 : i + 1 < (sortRounds l).length := by
    have := List.getElem?_eq_some.1 hb
    exact this.1
  have hrel := (sortRounds_sorted l).rel_get_of_lt
    (a := ⟨i, hi⟩) (b := ⟨i + 1, hi1⟩) (by simp [Fin.lt_def])
  have hga : (sortRounds l).get ⟨i, hi⟩ = a := by
    have := List.getElem?_eq_some.1 ha
    simpa [List.get_eq_getElem] using this.2
  have hgb : (sortRounds l).get ⟨i + 1, hi1⟩ = b := by
    have := List.getElem?_eq_some.1 hb
    simpa [List.get_eq_getElem] using this.2
  rw [hga, hgb] at hrel
  exact hrel

/-! ## Frame lemmas: which fields each operation can touch -/

/-- `submitAttempt`'s first half never touches the puzzle, the ledger, the
position, the lock, or the identity fields. -/
theorem submitStart_frame (s : AppState) :
    (submitStart s).1.puzzle = s.puzzle ∧ (submitStart s).1.answers = s.answers ∧
    (submitStart s).1.idx = s.idx ∧
    (submitStart s).1.unlockedRoundIndex = s.unlockedRoundIndex ∧
    (submitStart s).1.apiBase = s.apiBase ∧ (submitStart s).1.userId = s.userId := by
  unfold submitStart
  split
  · split <;> exact ⟨rfl, rfl, rfl, rfl, rfl, rfl⟩
  · exact ⟨rfl, rfl, rfl, rfl, rfl, rfl⟩

/-- `submitAttempt`'s second half never touches the puzzle, the ledger, the
position, the lock, or the identity fields. -/
theorem submitFinish_frame (s : AppState) (ar : FetchResult AttemptResponse)
    (lr : FetchResult LeaderboardResponse) :
    (submitFinish s ar lr).1.puzzle = s.puzzle ∧
    (submitFinish s ar lr).1.answers = s.answers ∧
    (submitFinish s ar lr).1.idx = s.idx ∧
    (submitFinish s ar lr).1.unlockedRoundIndex = s.unlockedRoundIndex ∧
    (submitFinish s ar lr).1.apiBase = s.apiBase ∧
    (submitFinish s ar lr).1.userId = s.userId := by
  unfold submitFinish
  rcases ar with _ | _ | _ <;> try exact ⟨rfl, rfl, rfl, rfl, rfl, rfl⟩
  rcases lr with _ | _ | _ <;> exact ⟨rfl, rfl, rfl, rfl, rfl, rfl⟩

/-- A choice-button click never touches the puzzle, the position, the lock,
or the identity fields. -/
theorem clickChoice_frame (s : AppState) (c : Choice) :
    (clickChoice s c).puzzle = s.puzzle ∧ (clickChoice s c).idx = s.idx ∧
    (clickChoice s c).unlockedRoundIndex = s.unlockedRoundIndex ∧
    (clickChoice s c).apiBase = s.apiBase ∧ (clickChoice s c).userId = s.userId ∧
    (clickChoice s c).submitting = s.submitting ∧ (clickChoice s c).attempt = s.attempt := by
  unfold clickChoice setChoice
  split
  · exact ⟨rfl, rfl, rfl, rfl, rfl, rfl, rfl⟩
  · split
    · split <;> exact ⟨rfl, rfl, rfl, rfl, rfl, rfl, rfl⟩
    · exact ⟨rfl, rfl, rfl, rfl, rfl, rfl, rfl⟩

/-- The error-message update in `next` touches no other field, so the
navigation-relevant reads are unchanged on it. -/
theorem roundsOf_withErr (s : AppState) (e : Option String) :
    roundsOf { s with err := e } = roundsOf s := rfl

/-- If the current round is not locked, then the lock designates exactly the
current round's index (and no submission is in flight, and no attempt has
been accepted). -/
theorem of_not_isCurrentLocked {s : AppState} (h : isCurrentLocked s = false) :
    s.submitting = false ∧ isAttemptOk s.attempt = false ∧
    s.unlockedRoundIndex = some (currentRoundIndex s) := by
  unfold isCurrentLocked at h
  rcases hu : s.unlockedRoundIndex with _ | u <;> rw [hu] at h
  · simp at h
  · simp only [Bool.or_eq_false_iff] at h
    obtain ⟨⟨h1, h2⟩, h3⟩ := h
    refine ⟨h1, h2, ?_⟩
    have : currentRoundIndex s = u := by
      by_contra hne
      simp [bne_iff_ne, hne] at h3
    rw [this]

end RealOrAI

namespace RealOrAI

/-! ## Characterizations of the operations, branch by branch -/

/-- In the current ledger, the validation loop finds nothing iff every round
is answered. -/
theorem firstUnanswered_eq_none_iff (rounds : List PuzzleRound) (ans : List (Nat × Choice)) :
    firstUnanswered rounds ans = none ↔
      ∀ r ∈ rounds, (getAnswer ans r.roundIndex).isSome := by
  induction rounds with
  | nil => simp [firstUnanswered]
  | cons r rest ih =>
    cases hr : getAnswer ans r.roundIndex with
    | none => simp [firstUnanswered, hr]
    | some c => simp [firstUnanswered, hr, ih]

/-- What the validation loop returns when it finds an unanswered round. -/
theorem firstUnanswered_eq_some {rounds : List PuzzleRound} {ans : List (Nat × Choice)}
    {r : PuzzleRound} (h : firstUnanswered rounds ans = some r) :
    r ∈ rounds ∧ getAnswer ans r.roundIndex = none := by
  induction rounds with
  | nil => simp [firstUnanswered] at h
  | cons r' rest ih =>
    cases hr : getAnswer ans r'.roundIndex with
    | none =>
      rw [firstUnanswered, hr] at h
      cases h
      exact ⟨List.mem_cons_self _ _, hr⟩
    | some c =>
      rw [firstUnanswered, hr] at h
      obtain ⟨hm, hn⟩ := ih h
      exact ⟨List.mem_cons_of_mem _ hm, hn⟩

/-- `next` on an unanswered current round: only the error message changes. -/
theorem next_of_unanswered {s : AppState} {cur : PuzzleRound}
    (hcur : currentRound s = some cur)
    (hun : getAnswer s.answers cur.roundIndex = none) :
    next s = ({ s with err := some "Choose Real or AI to continue." }, none) := by
  simp [next, hcur, hun]

/-- `next` on an answered, non-last round: advance the lock to the next
round's index and the position by one. -/
theorem next_of_answered_notLast {s : AppState} {cur nr : PuzzleRound} {ch : Choice}
    (hcur : currentRound s = some cur)
    (hans : getAnswer s.answers cur.roundIndex = some ch)
    (hlast : isLast s = false)
    (hnr : (roundsOf s)[s.idx + 1]? = some nr) :
    next s = ({ s with
        err := none, unlockedRoundIndex := some nr.roundIndex,
        idx := min (s.idx + 1) ((roundsOf s).length - 1) }, none) := by
  have hlast' : isLast { s with err := none } = false := hlast
  have hnr' : (roundsOf { s with err := none })[s.idx + 1]? = some nr := hnr
  simp [next, hcur, hans, hlast', hnr']
  rfl

/-- `next` on an answered last round: trigger submission. -/
theorem next_of_answered_last {s : AppState} {cur : PuzzleRound} {ch : Choice}
    (hcur : currentRound s = some cur)
    (hans : getAnswer s.answers cur.roundIndex = some ch)
    (hlast : isLast s = true) :
    next s = submitStart { s with err := none } := by
  have hlast' : isLast { s with err := none } = true := hlast
  simp [next, hcur, hans, hlast']

/-- `submitAttempt` with an unanswered round: sets the validation message and
sends nothing. -/
theorem submitStart_of_incomplete {s : AppState} {pz : PuzzleResponse} {r : PuzzleRound}
    (hpz : s.puzzle = some pz) (hcur : (currentRound s).isSome)
    (hfu : firstUnanswered pz.rounds s.answers = some r) :
    submitStart s = ({ s with
        err := some ("Please answer Round " ++ toString r.roundIndex
          ++ " before submitting.") }, none) := by
  obtain ⟨c, hc⟩ := Option.isSome_iff_exists.1 hcur
  simp [submitStart, hpz, hc, hfu]

/-- `submitAttempt` with a complete ledger: clears the error and the previous
attempt, marks the submission in flight, and issues the POST request. -/
theorem submitStart_of_complete {s : AppState} {pz : PuzzleResponse} {c : PuzzleRound}
    (hpz : s.puzzle = some pz) (hc : currentRound s = some c)
    (hfu : firstUnanswered pz.rounds s.answers = none) :
    submitStart s = ({ s with err := none, submitting := true, attempt := none },
      some (.attemptReq (s.apiBase ++ "/api/attempt")
        [("Content-Type", "application/json"), ("X-User-Id", s.userId)]
        (mkPayload pz s.answers))) := by
  simp [submitStart, hpz, hc, hfu]

/-- A choice click can only add or overwrite ledger entries, never remove
one. -/
theorem clickChoice_answers_isSome {s : AppState} {j : Nat}
    (h : (getAnswer s.answers j).isSome) (c : Choice) :
    (getAnswer (clickChoice s c).answers j).isSome := by
  unfold clickChoice setChoice
  split
  · exact h
  · split
    · split
      · exact h
      · exact isSome_getAnswer_updateEntry h _ _
    · exact h

/-! ## The session invariant -/

/-- Invariant of every state of a session loaded from puzzle response
`resp` with configuration `a` (API base) and `u` (user token): the puzzle is
the sorted response, the position stays inside the round list, the lock
designates exactly the round at the current position, and every round
strictly before the current position is answered. -/
structure Inv (a u : String) (resp : PuzzleResponse) (s : AppState) : Prop where
  apiBase_eq : s.apiBase = a
  userId_eq : s.userId = u
  puzzle_eq : s.puzzle = some { resp with rounds := sortRounds resp.rounds }
  idx_lt : resp.rounds ≠ [] → s.idx < (sortRounds resp.rounds).length
  unlocked_eq : resp.rounds ≠ [] →
    s.unlockedRoundIndex = ((sortRounds resp.rounds)[s.idx]?).map PuzzleRound.roundIndex
  answered_prefix : ∀ j, j < s.idx → ∀ r, (sortRounds resp.rounds)[j]? = some r →
    (getAnswer s.answers r.roundIndex).isSome

theorem Inv.roundsOf_eq {a u : String} {resp : PuzzleResponse} {s : AppState}
    (h : Inv a u resp s) : roundsOf s = sortRounds resp.rounds := by
  rw [roundsOf, h.puzzle_eq]

theorem inv_sessionStart (a u : String) (resp : PuzzleResponse) :
    Inv a u resp (sessionStart a u resp) := by
  refine ⟨rfl, rfl, rfl, ?_, ?_, ?_⟩
  · intro hne
    rw [sortRounds_length]
    exact List.length_pos.2 hne
  · intro hne
    have hlen : 0 < (sortRounds resp.rounds).length := by
      rw [sortRounds_length]; exact List.length_pos.2 hne
    cases hsr : sortRounds resp.rounds with
    | nil => rw [hsr] at hlen; simp at hlen
    | cons r0 t =>
      show (some (match (sortRounds resp.rounds).head? with
        | some r0 => r0.roundIndex | none => 1) : Option Nat) = _
      have hidx : (sessionStart a u resp).idx = 0 := rfl
      rw [hsr, hidx]
      simp
  · intro j hj
    simp [sessionStart, load, initState] at hj

/-- Every session event preserves the invariant. -/
theorem inv_step {a u : String} {resp : PuzzleResponse} {s : AppState}
    (h : Inv a u resp s) (e : SessionEvent) : Inv a u resp (stepEvent e s).1 := by
  cases e with
  | choose c =>
    show Inv a u resp (clickChoice s c)
    obtain ⟨hp, hi, hu, hab, hus, -, -⟩ := clickChoice_frame s c
    refine ⟨hab.trans h.apiBase_eq, hus.trans h.userId_eq, hp.trans h.puzzle_eq, ?_, ?_, ?_⟩
    · intro hne
      rw [hi]
      exact h.idx_lt hne
    · intro hne
      rw [hu, hi]
      exact h.unlocked_eq hne
    · intro j hj r hr
      rw [hi] at hj
      exact clickChoice_answers_isSome (h.answered_prefix j hj r hr) c
  | resolveSubmit ar lr =>
    show Inv a u resp (if s.submitting then submitFinish s ar lr else (s, none)).1
    split
    · obtain ⟨hp, ha, hi, hu, hab, hus⟩ := submitFinish_frame s ar lr
      refine ⟨hab.trans h.apiBase_eq, hus.trans h.userId_eq, hp.trans h.puzzle_eq, ?_, ?_, ?_⟩
      · intro hne
        rw [hi]
        exact h.idx_lt hne
      · intro hne
        rw [hu, hi]
        exact h.unlocked_eq hne
      · intro j hj r hr
        rw [hi] at hj
        rw [ha]
        exact h.answered_prefix j hj r hr
    · exact h
  | advanceClick =>
    show Inv a u resp (clickNext s).1
    rw [clickNext]
    split
    · exact h
    · cases hcur : currentRound s with
      | none =>
        rw [show next s = (s, none) from by simp [next, hcur]]
        exact h
      | some cur =>
        cases hans : getAnswer s.answers cur.roundIndex with
        | none =>
          rw [next_of_unanswered hcur hans]
          exact ⟨h.apiBase_eq, h.userId_eq, h.puzzle_eq, h.idx_lt, h.unlocked_eq,
            h.answered_prefix⟩
        | some ch =>
          by_cases hlast : isLast s = true
          · rw [next_of_answered_last hcur hans hlast]
            obtain ⟨hp, ha, hi, hu, hab, hus⟩ := submitStart_frame { s with err := none }
            refine ⟨hab.trans h.apiBase_eq, hus.trans h.userId_eq, hp.trans h.puzzle_eq,
              ?_, ?_, ?_⟩
            · intro hne
              rw [hi]
              exact h.idx_lt hne
            · intro hne
              rw [hu, hi]
              exact h.unlocked_eq hne
            · intro j hj r hr
              rw [hi] at hj
              rw [ha]
              exact h.answered_prefix j hj r hr
          · have hlast' : isLast s = false := by
              cases hl : isLast s
              · rfl
              · exact absurd hl hlast
            have hidx : s.idx < (roundsOf s).length := (List.getElem?_eq_some.1 hcur).1
            have hlen1 : s.idx + 1 < (roundsOf s).length := by
              have hne : (s.idx : Int) ≠ ((roundsOf s).length : Int) - 1 := by
                intro hcontra
                rw [isLast, hcontra] at hlast'
                simp at hlast'
              omega
            obtain ⟨nr, hnr⟩ : ∃ nr, (roundsOf s)[s.idx + 1]? = some nr :=
              ⟨_, List.getElem?_eq_getElem hlen1⟩
            rw [next_of_answered_notLast hcur hans hlast' hnr]
            have hmin : min (s.idx + 1) ((roundsOf s).length - 1) = s.idx + 1 := by
              omega
            refine ⟨h.apiBase_eq, h.userId_eq, h.puzzle_eq, ?_, ?_, ?_⟩
            · intro _
              show min (s.idx + 1) ((roundsOf s).length - 1) < _
              rw [hmin, ← h.roundsOf_eq]
              exact hlen1
            · intro _
              show (some nr.roundIndex : Option Nat) =
                ((sortRounds resp.rounds)[min (s.idx + 1) ((roundsOf s).length - 1)]?).map
                  PuzzleRound.roundIndex
              rw [hmin, ← h.roundsOf_eq, hnr]
              rfl
            · intro j hj r hr
              show (getAnswer s.answers r.roundIndex).isSome
              have hj' : j < s.idx + 1 := by
                have : j < min (s.idx + 1) ((roundsOf s).length - 1) := hj
                omega
              rcases Nat.lt_succ_iff_lt_or_eq.1 hj' with hlt | heq
              · exact h.answered_prefix j hlt r hr
              · subst heq
                have hcur' : (sortRounds resp.rounds)[s.idx]? = some cur := by
                  rw [← h.roundsOf_eq]
                  exact hcur
                rw [hcur'] at hr
                have : cur = r := Option.some.inj hr
                rw [← this, hans]
                rfl

/-- The invariant transports along any run of session events. -/
theorem reachableFrom_inv {a u : String} {resp : PuzzleResponse} {s₀ s : AppState}
    (h0 : Inv a u resp s₀) (h : ReachableFrom s₀ s) : Inv a u resp s := by
  induction h with
  | refl => exact h0
  | step e _ ih => exact inv_step ih e

/-- Every reachable state of a loaded session satisfies the invariant. -/
theorem reachable_inv {a u : String} {resp : PuzzleResponse} {s : AppState}
    (h : Reachable a u resp s) : Inv a u resp s :=
  reachableFrom_inv (inv_sessionStart a u resp) h

/-- One session event never decreases the unlocked round index. -/
theorem unlocked_mono_step {a u : String} {resp : PuzzleResponse} {s : AppState}
    (h : Inv a u resp s) (e : SessionEvent) {v : Nat}
    (hv : s.unlockedRoundIndex = some v) :
    ∃ w, (stepEvent e s).1.unlockedRoundIndex = some w ∧ v ≤ w := by
  cases e with
  | choose c =>
    obtain ⟨-, -, hu, -, -, -, -⟩ := clickChoice_frame s c
    exact ⟨v, by rw [show (stepEvent (.choose c) s).1 = clickChoice s c from rfl, hu, hv],
      le_rfl⟩
  | resolveSubmit ar lr =>
    show ∃ w, (if s.submitting then submitFinish s ar lr else (s, none)).1.unlockedRoundIndex
      = some w ∧ v ≤ w
    split
    · obtain ⟨-, -, -, hu, -, -⟩ := submitFinish_frame s ar lr
      exact ⟨v, by rw [hu, hv], le_rfl⟩
    · exact ⟨v, hv, le_rfl⟩
  | advanceClick =>
    show ∃ w, (clickNext s).1.unlockedRoundIndex = some w ∧ v ≤ w
    rw [clickNext]
    split
    · exact ⟨v, hv, le_rfl⟩
    · cases hcur : currentRound s with
      | none =>
        rw [show next s = (s, none) from by simp [next, hcur]]
        exact ⟨v, hv, le_rfl⟩
      | some cur =>
        cases hans : getAnswer s.answers cur.roundIndex with
        | none =>
          rw [next_of_unanswered hcur hans]
          exact ⟨v, hv, le_rfl⟩
        | some ch =>
          by_cases hlast : isLast s = true
          · rw [next_of_answered_last hcur hans hlast]
            obtain ⟨-, -, -, hu, -, -⟩ := submitStart_frame { s with err := none }
            exact ⟨v, by rw [hu]; exact hv, le_rfl⟩
          · have hlast' : isLast s = false := by
              cases hl : isLast s
              · rfl
              · exact absurd hl hlast
            have hidx : s.idx < (roundsOf s).length := (List.getElem?_eq_some.1 hcur).1
            have hlen1 : s.idx + 1 < (roundsOf s).length := by
              have hne : (s.idx : Int) ≠ ((roundsOf s).length : Int) - 1 := by
                intro hcontra
                rw [isLast, hcontra] at hlast'
                simp at hlast'
              omega
            obtain ⟨nr, hnr⟩ : ∃ nr, (roundsOf s)[s.idx + 1]? = some nr :=
              ⟨_, List.getElem?_eq_getElem hlen1⟩
            rw [next_of_answered_notLast hcur hans hlast' hnr]
            refine ⟨nr.roundIndex, rfl, ?_⟩
            have hne : resp.rounds ≠ [] := by
              intro hcontra
              rw [h.roundsOf_eq] at hidx
              rw [hcontra] at hidx
              simp [sortRounds, List.insertionSort] at hidx
            have hveq : v = cur.roundIndex := by
              have := h.unlocked_eq hne
              rw [hv, ← h.roundsOf_eq,
                show (roundsOf s)[s.idx]? = some cur from hcur] at this
              simpa using this
            have hcur' : (sortRounds resp.rounds)[s.idx]? = some cur := by
              rw [← h.roundsOf_eq]; exact hcur
            have hnr' : (sortRounds resp.rounds)[s.idx + 1]? = some nr := by
              rw [← h.roundsOf_eq]; exact hnr
            rw [hveq]
            exact sortRounds_le_of_consecutive hcur' hnr'

/-- The unlocked round index never decreases along a run of session events
starting from a reachable state. -/
theorem unlocked_mono_trace {a u : String} {resp : PuzzleResponse} {s t : AppState}
    (hs : Reachable a u resp s) (ht : ReachableFrom s t) {v : Nat}
    (hv : s.unlockedRoundIndex = some v) :
    ∃ w, t.unlockedRoundIndex = some w ∧ v ≤ w := by
  induction ht with
  | refl => exact ⟨v, hv, le_rfl⟩
  | step e hr ih =>
    obtain ⟨w, hw, hvw⟩ := ih
    have hinv := reachableFrom_inv (reachable_inv hs) hr
    obtain ⟨w', hw', hww'⟩ := unlocked_mono_step hinv e hw
    exact ⟨w', hw', hvw.trans hww'⟩

end RealOrAI

namespace RealOrAI

/-! ## Further helper lemmas used by the claims -/

/-- `next` never changes the answers ledger (in the submission branch the
ledger is read, not written). -/
theorem next_answers (s : AppState) : (next s).1.answers = s.answers := by
  cases hcur : currentRound s with
  | none => simp [next, hcur]
  | some cur =>
    cases hans : getAnswer s.answers cur.roundIndex with
    | none => rw [next_of_unanswered hcur hans]
    | some ch =>
      by_cases hlast : isLast s = true
      · rw [next_of_answered_last hcur hans hlast]
        exact (submitStart_frame _).2.1
      · have hlast' : isLast s = false := by
          cases hl : isLast s
          · rfl
          · exact absurd hl hlast
        cases hnr : (roundsOf s)[s.idx + 1]? with
        | some nr => rw [next_of_answered_notLast hcur hans hlast' hnr]
        | none =>
          have hlast2 : isLast { s with err := none } = false := hlast'
          have hnr2 : (roundsOf { s with err := none })[s.idx + 1]? = none := hnr
          simp [next, hcur, hans, hlast2, hnr2]

/-- A Next/Submit click never changes the answers ledger. -/
theorem clickNext_answers (s : AppState) : (clickNext s).1.answers = s.answers := by
  rw [clickNext]
  split
  · rfl
  · exact next_answers s

end RealOrAI

namespace RealOrAI

/-! ## Claim C2 -/

/-- Claim C2: over any sequence of session events (in particular any
sequence of `advance()` calls) on a loaded session, `unlockedRoundIndex`
never decreases; and at every reachable state of a loaded non-empty session
(the lock-bearing revision has no back-navigation operation, so this is
every state the program can be in), `unlockedRoundIndex` equals the index of
the round at position `currentIndex`. -/
theorem c2_unlocked_monotone_and_tracks_current (a u : String)
    (resp : PuzzleResponse) (s : AppState)
    (h : Reachable a u resp s) (hne : resp.rounds ≠ []) :
    (∀ t : AppState, ReachableFrom s t → ∀ v : Nat, s.unlockedRoundIndex = some v →
      ∃ w, t.unlockedRoundIndex = some w ∧ v ≤ w) ∧
    s.unlockedRoundIndex = ((roundsOf s)[s.idx]?).map PuzzleRound.roundIndex := by
  constructor
  · intro t ht v hv
    exact unlocked_mono_trace h ht hv
  · have hinv := reachable_inv h
    rw [hinv.roundsOf_eq]
    exact hinv.unlocked_eq hne

def c2Resp : PuzzleResponse := ⟨"2026-02-03", [⟨1, "img1"⟩, ⟨2, "img2"⟩, ⟨3, "img3"⟩], none⟩

def c2Start : AppState := sessionStart "https://api.example.com" "u-1" c2Resp

/-- Witness for C2 at a freshly loaded three-round session. -/
theorem c2_witness :
    c2Start.unlockedRoundIndex = ((roundsOf c2Start)[c2Start.idx]?).map PuzzleRound.roundIndex :=
  (c2_unlocked_monotone_and_tracks_current "https://api.example.com" "u-1" c2Resp c2Start
    ReachableFrom.refl (by decide)).2

/-! ## Claim C4 -/

/-- Claim C4: `advance()` (the `next` handler) on a current round with no
recorded Choice changes neither `currentIndex` nor `unlockedRoundIndex` nor
the ledger, issues no request, and surfaces only the local validation error
(the code's rendering of `ValidationError("unanswered")` is the message
`"Choose Real or AI to continue."`). -/
theorem c4_advance_unanswered_is_noop (s : AppState) (cur : PuzzleRound)
    (hcur : currentRound s = some cur)
    (hun : getAnswer s.answers cur.roundIndex = none) :
    (next s).1.idx = s.idx ∧
    (next s).1.unlockedRoundIndex = s.unlockedRoundIndex ∧
    (next s).1.answers = s.answers ∧
    (next s).1.attempt = s.attempt ∧
    (next s).1.err = some "Choose Real or AI to continue." ∧
    (next s).2 = none := by
  rw [next_of_unanswered hcur hun]
  exact ⟨rfl, rfl, rfl, rfl, rfl, rfl⟩

def c4Resp : PuzzleResponse := ⟨"2026-02-03", [⟨1, "img1"⟩, ⟨2, "img2"⟩], none⟩

def c4Start : AppState := sessionStart "https://api.example.com" "u-1" c4Resp

/-- Witness for C4 at a freshly loaded session whose first round is
unanswered. -/
theorem c4_witness :
    (next c4Start).1.idx = c4Start.idx ∧
    (next c4Start).1.unlockedRoundIndex = c4Start.unlockedRoundIndex ∧
    (next c4Start).1.answers = c4Start.answers ∧
    (next c4Start).1.attempt = c4Start.attempt ∧
    (next c4Start).1.err = some "Choose Real or AI to continue." ∧
    (next c4Start).2 = none :=
  c4_advance_unanswered_is_noop c4Start ⟨1, "img1"⟩ (by decide) (by decide)

/-! ## Claim C8 -/

/-- Claim C8: at every reachable state of a loaded non-empty session,
`currentIndex` is strictly below the number of rounds (there is no
`index == length` state); and when the current round is the last one and
has a recorded Choice, `advance()` leaves `currentIndex` unchanged and
instead triggers submission (marks the submission in flight and issues the
POST request). -/
theorem c8_last_round_advance_submits (a u : String) (resp : PuzzleResponse)
    (s : AppState) (h : Reachable a u resp s) (hne : resp.rounds ≠ []) :
    s.idx < (roundsOf s).length ∧
    (∀ cur : PuzzleRound, ∀ ch : Choice, currentRound s = some cur →
      isLast s = true → getAnswer s.answers cur.roundIndex = some ch →
      (next s).1.idx = s.idx ∧ (next s).1.submitting = true ∧
      (next s).2.isSome = true) := by
  have hinv := reachable_inv h
  constructor
  · rw [hinv.roundsOf_eq]
    exact hinv.idx_lt hne
  · intro cur ch hcur hlast hans
    have hroundsEq : roundsOf s = sortRounds resp.rounds := hinv.roundsOf_eq
    have hidx : s.idx < (roundsOf s).length := (List.getElem?_eq_some.1 hcur).1
    have hlastNat : s.idx = (roundsOf s).length - 1 := by
      rw [isLast] at hlast
      have hint : (s.idx : Int) = ((roundsOf s).length : Int) - 1 := beq_iff_eq.1 hlast
      omega
    have hcompl : ∀ r ∈ (sortRounds resp.rounds), (getAnswer s.answers r.roundIndex).isSome := by
      intro r hr
      obtain ⟨i, hi, hig⟩ := List.mem_iff_getElem.1 hr
      rw [← hroundsEq] at hi
      have hile : i ≤ s.idx := by omega
      rcases Nat.lt_or_eq_of_le hile with hlt | heq
      · refine hinv.answered_prefix i hlt r ?_
        rw [List.getElem?_eq_getElem (by rw [hroundsEq] at hi; exact hi)]
        exact congrArg some hig
      · have hri : (sortRounds resp.rounds)[s.idx]? = some cur := by
          rw [← hroundsEq]
          exact hcur
        rw [← heq] at hri
        rw [List.getElem?_eq_getElem (by rw [hroundsEq] at hi; exact hi), hig] at hri
        have : r = cur := Option.some.inj hri
        rw [this, hans]
        rfl
    have hfu : firstUnanswered (sortRounds resp.rounds) s.answers = none :=
      (firstUnanswered_eq_none_iff _ _).2 hcompl
    have hpz' : ({ s with err := none } : AppState).puzzle =
        some { resp with rounds := sortRounds resp.rounds } := hinv.puzzle_eq
    have hcur' : currentRound { s with err := none } = some cur := hcur
    rw [next_of_answered_last hcur hans hlast,
      submitStart_of_complete hpz' hcur' hfu]
    exact ⟨rfl, rfl, rfl⟩

def c8Resp : PuzzleResponse := ⟨"2026-02-03", [⟨1, "img1"⟩], none⟩

def c8Answered : AppState :=
  (stepEvent (.choose .ai) (sessionStart "https://api.example.com" "u-1" c8Resp)).1

/-- Witness for C8 at a one-round session whose only round has just been
answered: clicking advance triggers the submission. -/
theorem c8_witness :
    (next c8Answered).1.idx = c8Answered.idx ∧
    (next c8Answered).1.submitting = true ∧ (next c8Answered).2.isSome = true :=
  (c8_last_round_advance_submits "https://api.example.com" "u-1" c8Resp c8Answered
    (ReachableFrom.step (.choose .ai) ReachableFrom.refl) (by decide)).2
    ⟨1, "img1"⟩ .ai (by decide) (by decide) (by decide)

end RealOrAI

namespace RealOrAI

/-! ## Claim C3 -/

/-- Claim C3: submitting with a ledger that misses an entry for some round
of the loaded puzzle sends no network request, leaves the ledger,
`currentIndex`, `unlockedRoundIndex`, the submission flag, and the
AttemptResult unchanged, and surfaces only the local validation error
naming the first unanswered round. -/
theorem c3_submit_incomplete_rejected (s : AppState) (pz : PuzzleResponse)
    (hpz : s.puzzle = some pz) (hcur : (currentRound s).isSome = true)
    (hmiss : ∃ r ∈ pz.rounds, getAnswer s.answers r.roundIndex = none) :
    (submitStart s).2 = none ∧
    (submitStart s).1.answers = s.answers ∧
    (submitStart s).1.idx = s.idx ∧
    (submitStart s).1.unlockedRoundIndex = s.unlockedRoundIndex ∧
    (submitStart s).1.attempt = s.attempt ∧
    (submitStart s).1.submitting = s.submitting ∧
    (∃ r ∈ pz.rounds, getAnswer s.answers r.roundIndex = none ∧
      (submitStart s).1.err = some ("Please answer Round " ++ toString r.roundIndex
        ++ " before submitting.")) := by
  cases hfu : firstUnanswered pz.rounds s.answers with
  | none =>
    exfalso
    obtain ⟨r, hr, hrn⟩ := hmiss
    have := (firstUnanswered_eq_none_iff _ _).1 hfu r hr
    rw [hrn] at this
    simp at this
  | some r0 =>
    obtain ⟨hr0m, hr0n⟩ := firstUnanswered_eq_some hfu
    rw [submitStart_of_incomplete hpz hcur hfu]
    exact ⟨rfl, rfl, rfl, rfl, rfl, rfl, r0, hr0m, hr0n, rfl⟩

def c3Resp : PuzzleResponse := ⟨"2026-02-03", [⟨1, "img1"⟩, ⟨2, "img2"⟩], none⟩

def c3Start : AppState := sessionStart "https://api.example.com" "u-1" c3Resp

def c3Pz : PuzzleResponse := ⟨"2026-02-03", [⟨1, "img1"⟩, ⟨2, "img2"⟩], none⟩

/-- Witness for C3 at a freshly loaded two-round session with an empty
ledger. -/
theorem c3_witness :
    (submitStart c3Start).2 = none ∧
    (submitStart c3Start).1.answers = c3Start.answers ∧
    (submitStart c3Start).1.idx = c3Start.idx ∧
    (submitStart c3Start).1.unlockedRoundIndex = c3Start.unlockedRoundIndex ∧
    (submitStart c3Start).1.attempt = c3Start.attempt := by
  have h := c3_submit_incomplete_rejected c3Start c3Pz (by decide) (by decide)
    ⟨⟨1, "img1"⟩, by decide, by decide⟩
  exact ⟨h.1, h.2.1, h.2.2.1, h.2.2.2.1, h.2.2.2.2.1⟩

/-! ## Claim C10 -/

/-- Claim C10: when the current round `r` is editable (its index equals
`unlockedRoundIndex`, no submission is in flight, no successful attempt has
been recorded), `setChoice(r.roundIndex, c)` records `c` for `r` and leaves
every other round's ledger entry, `currentIndex`, `unlockedRoundIndex`, the
puzzle, and the AttemptResult unchanged. -/
theorem c10_setChoice_editable_writes_exactly_one (s : AppState) (r : PuzzleRound)
    (c : Choice) (hcur : currentRound s = some r)
    (hu : s.unlockedRoundIndex = some r.roundIndex)
    (hsub : s.submitting = false)
    (hatt : isAttemptOk s.attempt = false) :
    getAnswer (setChoice s r.roundIndex c).answers r.roundIndex = some c ∧
    (∀ j : Nat, j ≠ r.roundIndex →
      getAnswer (setChoice s r.roundIndex c).answers j = getAnswer s.answers j) ∧
    (setChoice s r.roundIndex c).idx = s.idx ∧
    (setChoice s r.roundIndex c).unlockedRoundIndex = s.unlockedRoundIndex ∧
    (setChoice s r.roundIndex c).puzzle = s.puzzle ∧
    (setChoice s r.roundIndex c).attempt = s.attempt := by
  have hlock : isCurrentLocked s = false := by
    rw [isCurrentLocked, hsub, hatt, hu]
    simp [currentRoundIndex, hcur]
  have hsc : setChoice s r.roundIndex c =
      { s with answers := updateEntry s.answers r.roundIndex c } := by
    rw [setChoice, if_neg]
    rw [hlock]
    simp
  rw [hsc]
  refine ⟨?_, ?_, rfl, rfl, rfl, rfl⟩
  · show getAnswer (updateEntry s.answers r.roundIndex c) r.roundIndex = some c
    rw [getAnswer_updateEntry]
    simp
  · intro j hj
    show getAnswer (updateEntry s.answers r.roundIndex c) j = getAnswer s.answers j
    rw [getAnswer_updateEntry, if_neg hj]

def c10Resp : PuzzleResponse := ⟨"2026-02-03", [⟨1, "img1"⟩, ⟨2, "img2"⟩], none⟩

def c10Start : AppState := sessionStart "https://api.example.com" "u-1" c10Resp

/-- Witness for C10 at a freshly loaded session, recording `ai` for the
editable first round. -/
theorem c10_witness :
    getAnswer (setChoice c10Start 1 .ai).answers 1 = some .ai ∧
    (setChoice c10Start 1 .ai).idx = c10Start.idx ∧
    (setChoice c10Start 1 .ai).unlockedRoundIndex = c10Start.unlockedRoundIndex ∧
    getAnswer (setChoice c10Start 1 .ai).answers 2 = getAnswer c10Start.answers 2 := by
  have h := c10_setChoice_editable_writes_exactly_one c10Start ⟨1, "img1"⟩ .ai
    (by decide) (by decide) (by decide) (by decide)
  exact ⟨h.1, h.2.2.1, h.2.2.2.1, h.2.1 2 (by decide)⟩

/-! ## Claim C9 -/

/-- Claim C9: for a complete ledger, the submission request carries the user
token only in the `X-User-Id` header — the body is a function of the puzzle
and the ledger alone and is identical for every token — and the body's
`answers` field maps exactly the puzzle's round indices, each rendered with
the canonical decimal string key, to the recorded Choice of that round (no
extra keys and no missing keys). -/
theorem c9_submission_request_shape (s : AppState) (pz : PuzzleResponse)
    (cur : PuzzleRound) (hpz : s.puzzle = some pz) (hcur : currentRound s = some cur)
    (hcomp : ∀ r ∈ pz.rounds, (getAnswer s.answers r.roundIndex).isSome) :
    (submitStart s).2 = some (.attemptReq (s.apiBase ++ "/api/attempt")
      [("Content-Type", "application/json"), ("X-User-Id", s.userId)]
      (mkPayload pz s.answers)) ∧
    (mkPayload pz s.answers).answers.map Prod.fst =
      pz.rounds.map (fun r => toString r.roundIndex) ∧
    (∀ r ∈ pz.rounds, ∃ c : Choice, getAnswer s.answers r.roundIndex = some c ∧
      (toString r.roundIndex, some c) ∈ (mkPayload pz s.answers).answers) ∧
    (∀ u' : String, (submitStart { s with userId := u' }).2 =
      some (.attemptReq (s.apiBase ++ "/api/attempt")
        [("Content-Type", "application/json"), ("X-User-Id", u')]
        (mkPayload pz s.answers))) := by
  have hfu : firstUnanswered pz.rounds s.answers = none :=
    (firstUnanswered_eq_none_iff _ _).2 hcomp
  refine ⟨?_, ?_, ?_, ?_⟩
  · rw [submitStart_of_complete hpz hcur hfu]
  · simp [mkPayload, List.map_map, Function.comp]
  · intro r hr
    obtain ⟨c, hc⟩ := Option.isSome_iff_exists.1 (hcomp r hr)
    refine ⟨c, hc, ?_⟩
    have hm := List.mem_map_of_mem
      (fun r : PuzzleRound => (toString r.roundIndex, getAnswer s.answers r.roundIndex)) hr
    simp only at hm
    rw [hc] at hm
    exact hm
  · intro u'
    have hpz2 : ({ s with userId := u' } : AppState).puzzle = some pz := hpz
    have hcur2 : currentRound { s with userId := u' } = some cur := hcur
    have hfu2 : firstUnanswered pz.rounds ({ s with userId := u' } : AppState).answers
      = none := hfu
    rw [submitStart_of_complete hpz2 hcur2 hfu2]

def c9Resp : PuzzleResponse := ⟨"2026-02-03", [⟨1, "img1"⟩, ⟨2, "img2"⟩], none⟩

def c9Pz : PuzzleResponse := ⟨"2026-02-03", [⟨1, "img1"⟩, ⟨2, "img2"⟩], none⟩

def c9Complete : AppState :=
  (stepEvent (.choose .real)
    (stepEvent .advanceClick
      (stepEvent (.choose .ai)
        (sessionStart "https://api.example.com" "u-1" c9Resp)).1).1).1

/-- Witness for C9 at a two-round session answered `ai`, `real`: the POST
request carries the token in the header and exactly the two string keys. -/
theorem c9_witness :
    (submitStart c9Complete).2 = some (.attemptReq "https://api.example.com/api/attempt"
      [("Content-Type", "application/json"), ("X-User-Id", "u-1")]
      ⟨"2026-02-03", [("1", some .ai), ("2", some .real)]⟩) := by
  rw [(c9_submission_request_shape c9Complete c9Pz ⟨2, "img2"⟩ (by decide) (by decide)
    (by decide)).1]
  decide

end RealOrAI

namespace RealOrAI

/-! ## Claim C1 -/

def c1Resp : PuzzleResponse := ⟨"2026-02-03", [⟨1, "img1"⟩, ⟨2, "img2"⟩], none⟩

def c1Locked : AppState :=
  (stepEvent .advanceClick
    (stepEvent (.choose .ai)
      (sessionStart "https://api.example.com" "u-1" c1Resp)).1).1

/-- Counterexample to C1 as stated: in the reachable state after answering
round 1 with `ai` and advancing (so round 1's index no longer equals
`unlockedRoundIndex = 2`), a `setChoice` call naming round 1 still
overwrites round 1's ledger entry, because the guard checks only whether
the round at `currentIndex` is unlocked, not the round named by the
argument. -/
theorem c1_counterexample :
    c1Locked.unlockedRoundIndex = some 2 ∧
    getAnswer c1Locked.answers 1 = some .ai ∧
    getAnswer (setChoice c1Locked 1 .real).answers 1 = some .real := by decide

/-- Claim C1 amended: once a round's index no longer equals
`unlockedRoundIndex`, no session event of the program (the choice buttons
pass only the current round's index to `setChoice`, advancing never writes
the ledger, and submission resolution never writes the ledger) changes that
round's ledger entry; only a direct `setChoice` call naming a non-current
round can (see the counterexample). -/
theorem c1_amended_locked_round_entry_stable (s : AppState) (e : SessionEvent)
    (j : Nat) (hj : s.unlockedRoundIndex ≠ some j) :
    getAnswer (stepEvent e s).1.answers j = getAnswer s.answers j := by
  cases e with
  | choose c =>
    show getAnswer (clickChoice s c).answers j = getAnswer s.answers j
    by_cases hd : choiceButtonsDisabled s = true
    · rw [clickChoice, if_pos hd]
    · rw [clickChoice, if_neg hd]
      cases hcur : currentRound s with
      | none => rfl
      | some cur =>
        show getAnswer (setChoice s cur.roundIndex c).answers j = getAnswer s.answers j
        by_cases hlock : isCurrentLocked s = true
        · rw [setChoice, if_pos hlock]
        · have hlock' : isCurrentLocked s = false := by
            cases hl : isCurrentLocked s
            · rfl
            · exact absurd hl hlock
          obtain ⟨-, -, hu⟩ := of_not_isCurrentLocked hlock'
          have hcri : currentRoundIndex s = cur.roundIndex := by
            simp [currentRoundIndex, hcur]
          rw [setChoice, if_neg hlock]
          show getAnswer (updateEntry s.answers cur.roundIndex c) j = getAnswer s.answers j
          rw [getAnswer_updateEntry, if_neg]
          intro hjc
          exact hj (by rw [hu, hcri, hjc])
  | advanceClick =>
    show getAnswer (clickNext s).1.answers j = getAnswer s.answers j
    rw [clickNext_answers]
  | resolveSubmit ar lr =>
    show getAnswer
      (if s.submitting then submitFinish s ar lr else (s, none)).1.answers j
      = getAnswer s.answers j
    split
    · rw [(submitFinish_frame s ar lr).2.1]
    · rfl

/-- Witness for the amended C1: clicking a choice button in the state of the
counterexample (current round 2 editable) leaves locked round 1's entry
unchanged. -/
theorem c1_amended_witness :
    getAnswer (stepEvent (.choose .real) c1Locked).1.answers 1
      = getAnswer c1Locked.answers 1 :=
  c1_amended_locked_round_entry_stable c1Locked (.choose .real) 1 (by decide)

/-! ## Claim C6 -/

def c6Resp : PuzzleResponse := ⟨"2026-02-03", [⟨1, "img1"⟩], none⟩

def c6InFlight : AppState :=
  (stepEvent .advanceClick
    (stepEvent (.choose .real)
      (sessionStart "https://api.example.com" "u-1" c6Resp)).1).1

/-- Counterexample to C6 as stated: in the reachable in-flight state
(`submitting = true`, reached by answering the single round and advancing),
a direct second `submitAttempt` call is neither rejected nor ignored — it
passes validation and issues a second POST request, because `submitAttempt`
contains no in-flight guard. -/
theorem c6_counterexample :
    c6InFlight.submitting = true ∧
    (submitStart c6InFlight).2.isSome = true := by decide

/-- Claim C6 amended: while a submission is in flight, the only UI trigger
of submission (the single Next/Submit button) is disabled, so a click
dispatches nothing and no second request is issued; the `submitAttempt`
function itself has no in-flight guard (see the counterexample). -/
theorem c6_amended_ui_blocks_second_submit (s : AppState)
    (h : s.submitting = true) : clickNext s = (s, none) := by
  have hd : nextButtonDisabled s = true := by
    rw [nextButtonDisabled, h]
    simp
  rw [clickNext, if_pos hd]

/-- Witness for the amended C6: clicking Next/Submit in the in-flight state
is a no-op that issues nothing. -/
theorem c6_amended_witness : clickNext c6InFlight = (c6InFlight, none) :=
  c6_amended_ui_blocks_second_submit c6InFlight (by decide)

/-! ## Claim C5 -/

def c5Resp : PuzzleResponse := ⟨"2026-02-03", [⟨1, "img1"⟩], none⟩

def c5InFlight : AppState :=
  (stepEvent .advanceClick
    (stepEvent (.choose .real)
      (sessionStart "https://api.example.com" "u-1" c5Resp)).1).1

def c5Accepted : AttemptResponse := .ok false "2026-02-03" 1 1 none

def c5AfterThrownLb : AppState :=
  (stepEvent (.resolveSubmit (.ok c5Accepted)
    (.thrown "NetworkError when attempting to fetch resource.")) c5InFlight).1

def c5AfterHttpErrLb : AppState :=
  (stepEvent (.resolveSubmit (.ok c5Accepted)
    (.httpErr 500 ⟨"2026-02-03", []⟩)) c5InFlight).1

/-- Claim C5 evaluated at the failing input (code bug): after the attempt
resolves Accepted, a leaderboard transport/parse failure lands in the shared
`catch` block, which clears the already-accepted AttemptResult
(`setAttempt(null)`) and reports the transport message as the general
error; and a non-success leaderboard HTTP response preserves the
AttemptResult but reports no leaderboard error at all. -/
theorem c5_leaderboard_failure_clobbers_attempt :
    c5InFlight.submitting = true ∧ c5InFlight.attempt = none ∧
    c5AfterThrownLb.attempt = none ∧
    c5AfterThrownLb.err = some "NetworkError when attempting to fetch resource." ∧
    c5AfterHttpErrLb.attempt = some c5Accepted ∧
    c5AfterHttpErrLb.err = none := by decide

/-! ## Claim C7 -/

def c7Resp : PuzzleResponse := ⟨"2026-02-03", [], none⟩

def c7Loaded : AppState := load (initState "https://api.example.com" "u-1") (.ok c7Resp)

/-- Claim C7 evaluated at the failing input (code bug): a successful load
whose round sequence is empty is not treated as a LoadError — the puzzle is
accepted with no error surfaced, the displayed round count falls back to the
nominal `rounds.length || 5 = 5`, and `unlockedRoundIndex` is set to the
fabricated fallback `1` although no such round exists. -/
theorem c7_empty_rounds_not_load_error :
    c7Loaded.err = none ∧
    c7Loaded.puzzle = some ⟨"2026-02-03", [], none⟩ ∧
    totalRounds c7Loaded = 5 ∧
    c7Loaded.unlockedRoundIndex = some 1 ∧
    currentRound c7Loaded = none := by decide

end RealOrAI
